import Mathlib

set_option maxHeartbeats 1000000

/-! Verification of the export engine in src/function_app.py.

The development is a shallow embedding: the pure control flow of the
AzureExporter methods is translated into total Lean functions, with the
external collaborators (the Graph API transport, the blob store, the key
vault and the identity provider) supplied as oracles. JSON bodies returned
by resp.json are modelled by the JVal type below; the generator functions
of the source are modelled by functions returning the list of yielded
items, with a fuel parameter bounding the length of server cursor chains
so the model stays total. -/

/-- JSON values as returned by resp.json. Numbers are modelled as
integers; no floating point arithmetic occurs in the embedded code. -/
inductive JVal where
  | null
  | bool (b : Bool)
  | num (n : Int)
  | str (s : String)
  | arr (items : List JVal)
  | obj (fields : List (String × JVal))

/-- First-match lookup in the field list of a JSON object, modelling
Python dict lookup (dict keys are unique, so first match suffices). -/
def lookupField : List (String × JVal) → String → Option JVal
  | [], _ => none
  | (k0, v) :: fs, k => if k0 = k then some v else lookupField fs k

/-- Python data.get(k) without a default: some v when the key is present,
none when it is absent. The embedded code only performs key lookup on the
object envelopes and items returned by the API. -/
def JVal.getField : JVal → String → Option JVal
  | .obj fs, k => lookupField fs k
  | _, _ => none

/-- Replacement or insertion of a field, modelling the Python dict
assignment d[k] = v (replace the existing key in place, else append). -/
def setFields : List (String × JVal) → String → JVal → List (String × JVal)
  | [], k, v => [(k, v)]
  | (k0, v0) :: fs, k, v => if k0 = k then (k, v) :: fs else (k0, v0) :: setFields fs k v

/-- Item mutation instance[k] = v. The source only assigns into dict
items returned by the API, so non-objects are left unchanged here. -/
def JVal.setField : JVal → String → JVal → JVal
  | .obj fs, k, v => .obj (setFields fs k v)
  | j, _, _ => j

/-- Python truthiness of a JSON value, as used by the or chains and the
while condition of the source. -/
def JVal.truthy : JVal → Bool
  | .null => false
  | .bool b => b
  | .num n => if n = 0 then false else true
  | .str s => if s = "" then false else true
  | .arr [] => false
  | .arr (_ :: _) => true
  | .obj [] => false
  | .obj (_ :: _) => true

/-- Python d.get(k) with default None: an absent key becomes JSON null,
which is exactly how json.dumps later serializes Python None. -/
def dictGet (j : JVal) (k : String) : JVal := (j.getField k).getD JVal.null

/-- Python x or y on JSON values. -/
def pyOr (a b : JVal) : JVal := if a.truthy then a else b

/-- Python f-string rendering of a JSON value. The ids and display names
interpolated by the source are strings (or None when absent); the repr of
collections is not modelled since no claim exercises it. -/
def pyFStr : JVal → String
  | .str s => s
  | .null => "None"
  | .bool true => "True"
  | .bool false => "False"
  | .num n => toString n
  | .arr _ => ""
  | .obj _ => ""

/-- Python iteration over the value field of an envelope. Per the API
interface the value field is always a JSON array; iteration over other
shapes (which the source would reject or iterate characterwise) is not
modelled. -/
def JVal.elems : JVal → List JVal
  | .arr items => items
  | _ => []

/-- Whitespace stripping from both ends of a character list, modelling
Python str.strip(). -/
def stripWs (cs : List Char) : List Char :=
  ((cs.dropWhile Char.isWhitespace).reverse.dropWhile Char.isWhitespace).reverse

/-- Numeric value of a list of decimal digit characters. -/
def digitsVal (cs : List Char) : Nat :=
  cs.foldl (fun a c => a * 10 + (c.toNat - 48)) 0

/-- Python int(s) on a string: optional surrounding whitespace, optional
sign, decimal digits. Underscore digit grouping and non-ASCII digits,
which Python also accepts, are not modelled; no claim depends on them. -/
def pyToInt? (s : String) : Option Int :=
  match stripWs s.toList with
  | [] => none
  | '-' :: ds => if ds ≠ [] ∧ ds.all Char.isDigit then some (-(digitsVal ds : Int)) else none
  | '+' :: ds => if ds ≠ [] ∧ ds.all Char.isDigit then some (digitsVal ds : Int) else none
  | ds => if ds.all Char.isDigit then some (digitsVal ds : Int) else none

/-- ASCII lowercasing of one character. -/
def charLower (c : Char) : Char :=
  if c.isUpper then Char.ofNat (c.toNat + 32) else c

/-- ASCII case-insensitive string comparison; HTTP header names are
ASCII. -/
def strLowerEq (a b : String) : Bool :=
  a.toList.map charLower == b.toList.map charLower

/-- Header lookup; the requests library stores response headers in a
case-insensitive dict. -/
def headersGet (hs : List (String × String)) (k : String) : Option String :=
  (hs.find? (fun p => strLowerEq p.1 k)).map (fun p => p.2)

/-- The seconds value produced by int(resp.headers.get("Retry-After", 10))
in the 429 branch: 10 when the header is absent; none models the int call
raising ValueError on an unparsable header value. -/
def retryAfterSeconds (hs : List (String × String)) : Option Int :=
  match headersGet hs "Retry-After" with
  | none => some 10
  | some s => pyToInt? s

/-- One HTTP response as observed by make_request: status code, headers,
and the JSON body that resp.json() would return. -/
structure HttpResponse where
  status : Nat
  headers : List (String × String)
  body : JVal

/-- Observable effects of one make_request call: the URL of every GET
issued (one per loop iteration) and the duration of every completed
time.sleep call. -/
structure ReqTrace where
  requests : List String
  sleeps : List Int

/-- The retry loop of AzureExporter.make_request. The transport is an
oracle from attempt index to outcome: none models requests.get raising a
transport exception (caught by the except block), some r a returned
response. The budget argument is the retries counter of the source, the
index argument counts loop iterations. A 429 sleeps for the parsed
Retry-After duration and retries; an unparsable Retry-After makes int
raise and a negative one makes time.sleep raise ValueError, both caught
by the same except block, so the budget is consumed without a delay and
the same URL is retried. 200 returns the response, 403 400 404 and every
other unexpected status return None immediately. -/
def make_requestGo (att : Nat → Option HttpResponse) (url : String) :
    Nat → Nat → Option HttpResponse × ReqTrace
  | 0, _ => (none, ⟨[], []⟩)
  | budget + 1, i =>
    match att i with
    | none =>
      let rest := make_requestGo att url budget (i + 1)
      (rest.1, ⟨url :: rest.2.requests, rest.2.sleeps⟩)
    | some resp =>
      if resp.status = 200 then (some resp, ⟨[url], []⟩)
      else if resp.status = 403 ∨ resp.status = 400 ∨ resp.status = 404 then
        (none, ⟨[url], []⟩)
      else if resp.status = 429 then
        match retryAfterSeconds resp.headers with
        | some n =>
          if 0 ≤ n then
            let rest := make_requestGo att url budget (i + 1)
            (rest.1, ⟨url :: rest.2.requests, n :: rest.2.sleeps⟩)
          else
            let rest := make_requestGo att url budget (i + 1)
            (rest.1, ⟨url :: rest.2.requests, rest.2.sleeps⟩)
        | none =>
          let rest := make_requestGo att url budget (i + 1)
          (rest.1, ⟨url :: rest.2.requests, rest.2.sleeps⟩)
      else (none, ⟨[url], []⟩)

/-- AzureExporter.make_request: the loop above entered with retries = 3. -/
def make_request (att : Nat → Option HttpResponse) (url : String) :
    Option HttpResponse × ReqTrace :=
  make_requestGo att url 3 0

/-- The page-level view of the network seen by fetch_all_pages: for each
URL, the JSON body of the response make_request returned, or none when
make_request returned None. net maps a URL to its per-attempt transport
outcomes. -/
def serverOf (net : String → Nat → Option HttpResponse) : String → Option JVal :=
  fun url => (make_request (net url) url).1.map HttpResponse.body

/-- Cursor extraction current_url = data.get("@odata.nextLink"). The API
returns this cursor as a URL string or null; null and absence are both
falsy and end the page loop of the source, as does an empty string. -/
def nextUrl (data : JVal) : Option String :=
  match data.getField "@odata.nextLink" with
  | some (.str s) => some s
  | _ => none

/-- The page loop of AzureExporter.fetch_all_pages, returning the items
the generator yields together with the URLs passed to make_request, in
order. The server oracle is the page-level network view. The while
condition checks Python truthiness of current_url, so none and the empty
string terminate. If the envelope has a value key its elements are
yielded and the cursor is followed; otherwise the whole envelope is
yielded once and the loop breaks. fuel bounds the cursor chain length so
the model is total; theorems quantify over enough fuel for their finite
scenarios. -/
def fetch_all_pagesGo (server : String → Option JVal) :
    Nat → Option String → List JVal × List String
  | 0, _ => ([], [])
  | _ + 1, none => ([], [])
  | fuel + 1, some url =>
    if url = "" then ([], [])
    else
      match server url with
      | none => ([], [url])
      | some data =>
        match data.getField "value" with
        | some v =>
          let rest := fetch_all_pagesGo server fuel (nextUrl data)
          (v.elems ++ rest.1, url :: rest.2)
        | none => ([data], [url])

/-- Items yielded by fetch_all_pages(url). -/
def fetch_all_pages (server : String → Option JVal) (fuel : Nat) (url : String) : List JVal :=
  (fetch_all_pagesGo server fuel (some url)).1

/-- URLs passed to make_request during fetch_all_pages(url). -/
def pages_requested (server : String → Option JVal) (fuel : Nat) (url : String) : List String :=
  (fetch_all_pagesGo server fuel (some url)).2

/-- One entry of the RESOURCES table: name, endpoint path, API surface. -/
structure ResourceSpec where
  name : String
  endpoint : String
  version : String

def GRAPH_API_BASE : String := "https://graph.microsoft.com/v1.0"

def GRAPH_API_BETA : String := "https://graph.microsoft.com/beta"

/-- The RESOURCES dict of the source, in insertion (source) order. -/
def RESOURCES : List ResourceSpec :=
  [⟨"Entra_Users", "/users?$top=100", "v1.0"⟩,
   ⟨"Entra_Groups", "/groups?$top=100", "v1.0"⟩,
   ⟨"Entra_Applications", "/applications?$top=100", "v1.0"⟩,
   ⟨"Entra_ConditionalAccess", "/identity/conditionalAccess/policies", "v1.0"⟩,
   ⟨"Intune_DeviceConfigs_Legacy", "/deviceManagement/deviceConfigurations?$top=100", "beta"⟩,
   ⟨"Intune_SettingsCatalog", "/deviceManagement/configurationPolicies?$top=100", "beta"⟩,
   ⟨"Intune_AdminTemplates", "/deviceManagement/groupPolicyConfigurations?$expand=definitionValues&$top=100", "beta"⟩,
   ⟨"Intune_EndpointSecurity_Intents", "/deviceManagement/intents?$expand=settings&$top=100", "beta"⟩,
   ⟨"Intune_WindowsUpdateRings", "/deviceManagement/deviceConfigurations?$filter=contains(bitAnd(prop_id, 1), 1)&$top=100", "beta"⟩,
   ⟨"Intune_CompliancePolicies", "/deviceManagement/deviceCompliancePolicies?$top=100", "v1.0"⟩,
   ⟨"Intune_WindowsAutopilot", "/deviceManagement/windowsAutopilotDeviceIdentities?$top=100", "v1.0"⟩,
   ⟨"Intune_MobileApps", "/deviceAppManagement/mobileApps?$top=100", "v1.0"⟩,
   ⟨"Intune_Scripts", "/deviceManagement/deviceManagementScripts?$top=100", "beta"⟩,
   ⟨"Intune_ShellScripts", "/deviceManagement/deviceShellScripts?$top=100", "beta"⟩]

/-- Python s.startswith(p). -/
def pyStartsWith (s p : String) : Bool := p.toList.isPrefixOf s.toList

/-- The full_url computation of run: beta base for version beta, v1.0
base otherwise, and an endpoint already starting with http is used
verbatim. -/
def resourceUrl (r : ResourceSpec) : String :=
  let base := if r.version = "beta" then GRAPH_API_BETA else GRAPH_API_BASE
  if pyStartsWith r.endpoint "http" then r.endpoint else base ++ r.endpoint

/-- The outer URL of fetch_baselines. -/
def templatesUrl : String := GRAPH_API_BETA ++ "/deviceManagement/templates?$top=100"

/-- The inner URL of fetch_baselines for one template, interpolating
template.get("id") as the source f-string does. -/
def instancesUrl (template : JVal) : String :=
  GRAPH_API_BETA ++ "/deviceManagement/templates/" ++ pyFStr (dictGet template "id") ++
    "/migratableInstances?$expand=settings"

/-- The save_item calls performed by AzureExporter.fetch_baselines, as
(category, item) pairs in order. For each template of the outer paginated
fetch, one inner paginated fetch of its migratable instances runs, and
each instance is tagged with the owning template display name under the
synthetic key _SourceTemplate before being saved under the fixed
Intune_SecurityBaselines category. The lazy interleaving of the source
generators is modelled by eager per-fetch collection, which preserves the
sequence of saves and the set of fetches. -/
def fetch_baselines (server : String → Option JVal) (fuel : Nat) : List (String × JVal) :=
  ((fetch_all_pages server fuel templatesUrl).map (fun template =>
    (fetch_all_pages server fuel (instancesUrl template)).map (fun inst =>
      ("Intune_SecurityBaselines",
        inst.setField "_SourceTemplate" (dictGet template "displayName"))))).flatten

/-- URLs passed to make_request during fetch_baselines. -/
def baselinePages (server : String → Option JVal) (fuel : Nat) : List String :=
  pages_requested server fuel templatesUrl ++
    ((fetch_all_pages server fuel templatesUrl).map (fun template =>
      pages_requested server fuel (instancesUrl template))).flatten

/-- The save_item calls performed by AzureExporter.run, as (category,
item) pairs in order: every item of every catalog resource under the
resource name, then the baseline traversal. -/
def runSaves (server : String → Option JVal) (fuel : Nat) : List (String × JVal) :=
  (RESOURCES.map (fun r =>
    (fetch_all_pages server fuel (resourceUrl r)).map (fun item => (r.name, item)))).flatten ++
    fetch_baselines server fuel

/-- URLs passed to make_request during AzureExporter.run, in order:
the pages of every catalog resource, then the baseline pages. -/
def runPages (server : String → Option JVal) (fuel : Nat) : List String :=
  (RESOURCES.map (fun r => pages_requested server fuel (resourceUrl r))).flatten ++
    baselinePages server fuel

/-- The sanitization alphabet of save_item: c.isalnum() or one of space,
dot, underscore, hyphen. The isalnum test is modelled on the ASCII range
of Char.isAlphanum. -/
def allowedChar (c : Char) : Bool :=
  c.isAlphanum || c == ' ' || c == '.' || c == '_' || c == '-'

/-- The label pipeline of save_item: keep the allowed characters, strip
(Python str.strip), truncate to 60 characters. -/
def sanitizeChars (cs : List Char) : List Char :=
  (stripWs (cs.filter allowedChar)).take 60

/-- raw_name = item.get("displayName") or item.get("name") or
item.get("id") or "unknown", with Python or semantics (falsy values fall
through). -/
def raw_name (item : JVal) : JVal :=
  pyOr (dictGet item "displayName")
    (pyOr (dictGet item "name") (pyOr (dictGet item "id") (.str "unknown")))

/-- String content of the chosen label. The label fields returned by the
API are strings; a non-string label would make the source raise TypeError
while iterating it, a path no claim exercises. -/
def labelString : JVal → String
  | .str s => s
  | _ => ""

/-- safe_name of save_item. -/
def safe_name (item : JVal) : String :=
  String.mk (sanitizeChars (labelString (raw_name item)).toList)

/-- item_id = item.get("id", "noid") rendered into the file name
f-string: "noid" only when the key is absent. -/
def item_id (item : JVal) : String :=
  match item.getField "id" with
  | none => "noid"
  | some v => pyFStr v

/-- file_name of save_item. -/
def file_name (item : JVal) : String :=
  safe_name item ++ " (" ++ item_id item ++ ").json"

/-- blob_path of save_item. DATE_STR is a process-start constant in the
source and is the runDate parameter here. -/
def blob_path (runDate category : String) (item : JVal) : String :=
  runDate ++ "/" ++ category ++ "/" ++ file_name item

/-- Outcome of one blob store write: success, or upload_blob raising. -/
inductive WriteResult where
  | ok
  | err (msg : String)

/-- Observable outcome of one save_item call: the item was written at its
key, or the write raised and the item was logged and dropped. -/
inductive SaveOutcome where
  | written (key : String)
  | dropped (key : String) (msg : String)

/-- AzureExporter.save_item with the blob store write as an oracle. The
blob content is the item (the source serializes it with json.dumps; no
claim inspects the serialized text). The try/except around upload_blob
turns a raised write error into a logged drop, so save_item always
returns normally. -/
def save_item (write : String → JVal → WriteResult) (runDate category : String)
    (item : JVal) : SaveOutcome :=
  match write (blob_path runDate category item) item with
  | .ok => SaveOutcome.written (blob_path runDate category item)
  | .err e => SaveOutcome.dropped (blob_path runDate category item) e

/-- Execution of a sequence of save_item calls in order; the write oracle
is indexed by call position so each write can fail independently. -/
def processSaves (write : Nat → String → JVal → WriteResult) (runDate : String) :
    Nat → List (String × JVal) → List SaveOutcome
  | _, [] => []
  | i, (category, item) :: rest =>
    save_item (write i) runDate category item :: processSaves write runDate (i + 1) rest

/-- Outcome of materializing the certificate to /tmp/temp_cert.pem in
step 2 of AzureExporter setup: the write completes, or open fails with no
file created, or open creates the file and writing the content then
fails. -/
inductive CertWrite where
  | ok
  | failNoFile
  | failFileCreated

/-- The external outcomes observed during AzureExporter setup, one per
fallible step, in program order. -/
structure SetupWorld where
  storageOk : Bool
  vaultOk : Bool
  certWrite : CertWrite
  credOk : Bool
  tokenOk : Bool

/-- Terminal outcome of setup: success, or the fatal error re-raised by
one of the three try blocks. -/
inductive SetupOutcome where
  | ok
  | storageFatal
  | vaultFatal
  | authFatal

/-- AzureExporter.__init__ as a step machine over the outcome world,
returning the terminal outcome together with whether the temporary
certificate file is still on disk when the method finishes. Step 1 is the
storage bootstrap, step 2 retrieves the secret and materializes the
certificate file, step 3 builds the credential and exchanges it for a
token inside try/except/finally whose finally removes the file when it
exists, on success and on failure alike. -/
def setup (w : SetupWorld) : SetupOutcome × Bool :=
  if !w.storageOk then (SetupOutcome.storageFatal, false)
  else if !w.vaultOk then (SetupOutcome.vaultFatal, false)
  else
    match w.certWrite with
    | .failNoFile => (SetupOutcome.vaultFatal, false)
    | .failFileCreated => (SetupOutcome.vaultFatal, true)
    | .ok =>
      if !w.credOk then (SetupOutcome.authFatal, false)
      else if !w.tokenOk then (SetupOutcome.authFatal, false)
      else (SetupOutcome.ok, false)

/-- A collection page envelope carrying the given value array and, when
next is present, an @odata.nextLink cursor to it. -/
def mkPage (vals : List JVal) (next : Option String) : JVal :=
  JVal.obj ([("value", JVal.arr vals)] ++
    (match next with
     | some u => [("@odata.nextLink", JVal.str u)]
     | none => []))

/-- The server serves a finite chain of collection pages at the given
URLs: page i carries the values pages i and a cursor to the following URL
(absent after the last page), and every URL in the chain is non-empty. -/
def ServesChain (server : String → Option JVal) : List String → List (List JVal) → Prop
  | [], [] => True
  | url :: urls, vals :: rest =>
    url ≠ "" ∧ server url = some (mkPage vals urls.head?) ∧ ServesChain server urls rest
  | _, _ => False

/-! Helper lemmas. -/

lemma fetch_all_pagesGo_none (server : String → Option JVal) (fuel : Nat) :
    fetch_all_pagesGo server fuel none = ([], []) := by
  cases fuel <;> rfl

lemma nextUrl_mkPage (vals : List JVal) (next : Option String) :
    nextUrl (mkPage vals next) = next := by
  cases next <;> simp [nextUrl, mkPage, JVal.getField, lookupField]

lemma getField_mkPage_value (vals : List JVal) (next : Option String) :
    (mkPage vals next).getField "value" = some (JVal.arr vals) := by
  cases next <;> simp [mkPage, JVal.getField, lookupField]

lemma fetch_chain (server : String → Option JVal) :
    ∀ (urls : List String) (pages : List (List JVal)) (fuel : Nat),
      ServesChain server urls pages → urls.length ≤ fuel →
      (fetch_all_pagesGo server fuel urls.head?).1 = pages.flatten := by
  intro urls
  induction urls with
  | nil =>
    intro pages fuel h _
    cases pages with
    | nil => simp [fetch_all_pagesGo_none]
    | cons p ps => exact absurd h (by simp [ServesChain])
  | cons u us ih =>
    intro pages fuel h hf
    cases pages with
    | nil => exact absurd h (by simp [ServesChain])
    | cons vs ps =>
      obtain ⟨hu, hs, hrest⟩ := h
      obtain ⟨f, rfl⟩ : ∃ f, fuel = f + 1 := ⟨fuel - 1, by simp at hf; omega⟩
      have hlen : us.length ≤ f := by simp at hf; omega
      simp only [List.head?_cons, fetch_all_pagesGo, hs, getField_mkPage_value,
        nextUrl_mkPage, if_neg hu]
      simp [JVal.elems, ih ps f hrest hlen, List.flatten_cons]

lemma fetch_all_pages_one_page (server : String → Option JVal) (url : String)
    (vals : List JVal) (fuel : Nat) (hu : url ≠ "") (hf : 1 ≤ fuel)
    (hs : server url = some (JVal.obj [("value", JVal.arr vals)])) :
    fetch_all_pages server fuel url = vals := by
  obtain ⟨f, rfl⟩ : ∃ f, fuel = f + 1 := ⟨fuel - 1, by omega⟩
  simp [fetch_all_pages, fetch_all_pagesGo, if_neg hu, hs, JVal.getField, lookupField,
    nextUrl, JVal.elems, fetch_all_pagesGo_none]

/-- C1: over every finite chain of successful collection pages linked by
cursors, fetch_all_pages yields exactly the concatenation of the value
arrays in order, and in particular the two mock responses of the spec
yield exactly [a, b, c]. -/
theorem fetch_all_pages_chain_concat (server : String → Option JVal) :
    (∀ (urls : List String) (pages : List (List JVal)) (fuel : Nat),
        ServesChain server urls pages → urls.length ≤ fuel →
        (fetch_all_pagesGo server fuel urls.head?).1 = pages.flatten) ∧
    (∀ (a b c : JVal) (u1 u2 : String) (fuel : Nat), u1 ≠ "" → u2 ≠ "" → 2 ≤ fuel →
        server u1 = some (JVal.obj [("value", JVal.arr [a, b]),
          ("@odata.nextLink", JVal.str u2)]) →
        server u2 = some (JVal.obj [("value", JVal.arr [c]),
          ("@odata.nextLink", JVal.null)]) →
        fetch_all_pages server fuel u1 = [a, b, c]) := by
  constructor
  · exact fetch_chain server
  · intro a b c u1 u2 fuel hu1 hu2 hf h1 h2
    obtain ⟨f, rfl⟩ : ∃ f, fuel = f + 2 := ⟨fuel - 2, by omega⟩
    simp [fetch_all_pages, fetch_all_pagesGo, if_neg hu1, if_neg hu2, h1, h2,
      JVal.getField, lookupField, nextUrl, JVal.elems, fetch_all_pagesGo_none]

def srvC1 : String → Option JVal := fun u =>
  if u = "U1" then
    some (JVal.obj [("value", JVal.arr [JVal.num 1, JVal.num 2]),
      ("@odata.nextLink", JVal.str "U2")])
  else if u = "U2" then
    some (JVal.obj [("value", JVal.arr [JVal.num 3]), ("@odata.nextLink", JVal.null)])
  else none

theorem fetch_all_pages_chain_concat_witness :
    fetch_all_pages srvC1 2 "U1" = [JVal.num 1, JVal.num 2, JVal.num 3] :=
  (fetch_all_pages_chain_concat srvC1).2 (JVal.num 1) (JVal.num 2) (JVal.num 3)
    "U1" "U2" 2 (by decide) (by decide) (by decide) rfl rfl

/-- C2: a successful response whose envelope has no value key makes
fetch_all_pages yield exactly the whole envelope once and terminate,
whatever other fields (a cursor included) the envelope carries. -/
theorem fetch_all_pages_singleton_envelope (server : String → Option JVal)
    (url : String) (fields : List (String × JVal)) (fuel : Nat)
    (hu : url ≠ "") (hf : 1 ≤ fuel)
    (hs : server url = some (JVal.obj fields))
    (hv : lookupField fields "value" = none) :
    fetch_all_pages server fuel url = [JVal.obj fields] := by
  obtain ⟨f, rfl⟩ : ∃ f, fuel = f + 1 := ⟨fuel - 1, by omega⟩
  simp [fetch_all_pages, fetch_all_pagesGo, if_neg hu, hs, JVal.getField, hv]

def srvC2 : String → Option JVal := fun u =>
  if u = "U1" then
    some (JVal.obj [("id", JVal.str "solo"), ("@odata.nextLink", JVal.str "U2")])
  else some (JVal.obj [("value", JVal.arr [])])

theorem fetch_all_pages_singleton_envelope_witness :
    fetch_all_pages srvC2 1 "U1" =
      [JVal.obj [("id", JVal.str "solo"), ("@odata.nextLink", JVal.str "U2")]] :=
  fetch_all_pages_singleton_envelope srvC2 "U1"
    [("id", JVal.str "solo"), ("@odata.nextLink", JVal.str "U2")] 1
    (by decide) (by decide) rfl rfl

lemma make_requestGo_spec (att : Nat → Option HttpResponse) (url : String) :
    ∀ (budget i : Nat),
      (make_requestGo att url budget i).2.requests.length ≤ budget ∧
      (∀ u ∈ (make_requestGo att url budget i).2.requests, u = url) ∧
      (∀ r, (make_requestGo att url budget i).1 = some r → r.status = 200) ∧
      (1 ≤ budget → 1 ≤ (make_requestGo att url budget i).2.requests.length) := by
  intro budget
  induction budget with
  | zero => intro i; simp [make_requestGo]
  | succ b ih =>
    intro i
    simp only [make_requestGo]
    cases h : att i with
    | none =>
      obtain ⟨ihl, ihm, ihok, _⟩ := ih (i + 1)
      refine ⟨by simpa using Nat.succ_le_succ ihl, ?_, ?_, fun _ => by simp⟩
      · intro u hu
        rcases List.mem_cons.mp hu with rfl | hu
        · rfl
        · exact ihm u hu
      · intro r hr
        exact ihok r hr
    | some resp =>
      by_cases h200 : resp.status = 200
      · simp only [if_pos h200]
        refine ⟨by simp, by simp, ?_, fun _ => by simp⟩
        intro r hr
        cases hr
        exact h200
      · by_cases h4 : resp.status = 403 ∨ resp.status = 400 ∨ resp.status = 404
        · simp [h200, h4]
        · by_cases h429 : resp.status = 429
          · simp only [if_neg h200, if_neg h4, if_pos h429]
            cases hra : retryAfterSeconds resp.headers with
            | none =>
              obtain ⟨ihl, ihm, ihok, _⟩ := ih (i + 1)
              refine ⟨by simpa using Nat.succ_le_succ ihl, ?_, fun r hr => ihok r hr,
                fun _ => by simp⟩
              intro u hu
              rcases List.mem_cons.mp hu with rfl | hu
              · rfl
              · exact ihm u hu
            | some n =>
              by_cases hn : 0 ≤ n
              · simp only [if_pos hn]
                obtain ⟨ihl, ihm, ihok, _⟩ := ih (i + 1)
                refine ⟨by simpa using Nat.succ_le_succ ihl, ?_, fun r hr => ihok r hr,
                  fun _ => by simp⟩
                intro u hu
                rcases List.mem_cons.mp hu with rfl | hu
                · rfl
                · exact ihm u hu
              · simp only [if_neg hn]
                obtain ⟨ihl, ihm, ihok, _⟩ := ih (i + 1)
                refine ⟨by simpa using Nat.succ_le_succ ihl, ?_, fun r hr => ihok r hr,
                  fun _ => by simp⟩
                intro u hu
                rcases List.mem_cons.mp hu with rfl | hu
                · rfl
                · exact ihm u hu
          · simp [h200, h4, h429]

/-- C3: a 429 answer whose Retry-After header is absent or parses to a
non-negative count of seconds causes exactly one delay of that duration
(10 seconds by default), consumes one unit of retry budget, and re-issues
the identical URL; when all 3 attempts answer 429 the call returns None
after three requests to the same URL without raising, and the page
sequence of the caller then terminates with zero additional items. -/
theorem make_request_rate_limit_retry (att : Nat → Option HttpResponse) (url : String) :
    (∀ (hdrs : List (String × String)) (b : JVal) (n : Int),
        att 0 = some ⟨429, hdrs, b⟩ → retryAfterSeconds hdrs = some n → 0 ≤ n →
        make_request att url =
          ((make_requestGo att url 2 1).1,
           ⟨url :: (make_requestGo att url 2 1).2.requests,
            n :: (make_requestGo att url 2 1).2.sleeps⟩)) ∧
    (∀ hdrs, headersGet hdrs "Retry-After" = none → retryAfterSeconds hdrs = some 10) ∧
    (∀ (hdrs : List (String × String)) (b : JVal) (n : Int),
        (∀ i, att i = some ⟨429, hdrs, b⟩) → retryAfterSeconds hdrs = some n → 0 ≤ n →
        make_request att url = (none, ⟨[url, url, url], [n, n, n]⟩)) ∧
    (∀ (net : String → Nat → Option HttpResponse) (fuel : Nat) (u : String),
        (make_request (net u) u).1 = none →
        fetch_all_pages (serverOf net) fuel u = []) := by
  refine ⟨?_, ?_, ?_, ?_⟩
  · intro hdrs b n h hra hn
    simp [make_request, make_requestGo, h, hra, hn]
  · intro hdrs hget
    simp [retryAfterSeconds, hget]
  · intro hdrs b n hall hra hn
    simp [make_request, make_requestGo, hall, hra, hn]
  · intro net fuel u hm
    have hs : serverOf net u = none := by simp [serverOf, hm]
    cases fuel with
    | zero => simp [fetch_all_pages, fetch_all_pagesGo]
    | succ f =>
      by_cases hu : u = "" <;> simp [fetch_all_pages, fetch_all_pagesGo, hu, hs]

def attC3 : Nat → Option HttpResponse :=
  fun _ => some ⟨429, [("Retry-After", "5")], JVal.null⟩

theorem make_request_rate_limit_retry_witness :
    make_request attC3 "https://graph.microsoft.com/v1.0/users" =
      (none, ⟨["https://graph.microsoft.com/v1.0/users",
               "https://graph.microsoft.com/v1.0/users",
               "https://graph.microsoft.com/v1.0/users"], [5, 5, 5]⟩) :=
  (make_request_rate_limit_retry attC3 "https://graph.microsoft.com/v1.0/users").2.2.1
    [("Retry-After", "5")] JVal.null 5 (fun _ => rfl) rfl (by decide)

/-- C4: a 400, 403 or 404 answer (and likewise any status other than 200
and 429) makes make_request return None immediately after that single
request, with no sleep and no dependence on the remaining retry budget;
a page URL answered by None contributes zero items to its sequence; and
the saves of every catalog resource appear in the run regardless of the
other resources, so one total failure does not stop the run. -/
theorem make_request_nonretryable_null (att : Nat → Option HttpResponse) (url : String) :
    (∀ (r : HttpResponse) (budget i : Nat), att i = some r →
        (r.status = 400 ∨ r.status = 403 ∨ r.status = 404 ∨
          (r.status ≠ 200 ∧ r.status ≠ 429)) →
        make_requestGo att url (budget + 1) i = (none, ⟨[url], []⟩)) ∧
    (∀ (server : String → Option JVal) (fuel : Nat) (u : String), server u = none →
        fetch_all_pages server fuel u = []) ∧
    (∀ (server : String → Option JVal) (fuel : Nat) (r : ResourceSpec), r ∈ RESOURCES →
        ∃ pre post, runSaves server fuel =
          pre ++ (fetch_all_pages server fuel (resourceUrl r)).map
            (fun item => (r.name, item)) ++ post) := by
  refine ⟨?_, ?_, ?_⟩
  · intro r budget i h hstat
    simp only [make_requestGo, h]
    rcases hstat with h1 | h1 | h1 | ⟨h1, h2⟩
    · simp [h1]
    · simp [h1]
    · simp [h1]
    · by_cases h4 : r.status = 403 ∨ r.status = 400 ∨ r.status = 404
      · simp [h1, h4]
      · simp [h1, h2, h4]
  · intro server fuel u hs
    cases fuel with
    | zero => simp [fetch_all_pages, fetch_all_pagesGo]
    | succ f =>
      by_cases hu : u = "" <;> simp [fetch_all_pages, fetch_all_pagesGo, hu, hs]
  · intro server fuel r hr
    obtain ⟨s, t, hEq⟩ := List.append_of_mem hr
    refine ⟨((s.map (fun q =>
      (fetch_all_pages server fuel (resourceUrl q)).map (fun item => (q.name, item)))).flatten),
      ((t.map (fun q =>
        (fetch_all_pages server fuel (resourceUrl q)).map
          (fun item => (q.name, item)))).flatten) ++ fetch_baselines server fuel, ?_⟩
    simp [runSaves, hEq, List.map_append, List.flatten_append, List.append_assoc]

def attC4 : Nat → Option HttpResponse := fun _ => some ⟨403, [], JVal.null⟩

theorem make_request_nonretryable_null_witness :
    make_requestGo attC4 "https://graph.microsoft.com/v1.0/users" 3 0 =
      (none, ⟨["https://graph.microsoft.com/v1.0/users"], []⟩) :=
  (make_request_nonretryable_null attC4 "https://graph.microsoft.com/v1.0/users").1
    ⟨403, [], JVal.null⟩ 2 0 rfl (by decide)

/-- C10: make_request is total over transport outcomes: it issues at most
3 requests, every request re-uses the same URL, a returned response is
always a 200, and a 429 whose Retry-After header is present but not an
integer does not raise: the int ValueError is caught like a transport
error, one unit of budget is consumed, and the same URL is retried with
no server-directed delay added. -/
theorem make_request_total_no_crash (att : Nat → Option HttpResponse) (url : String) :
    (make_request att url).2.requests.length ≤ 3 ∧
    (∀ u ∈ (make_request att url).2.requests, u = url) ∧
    (∀ r, (make_request att url).1 = some r → r.status = 200) ∧
    (∀ (hdrs : List (String × String)) (b : JVal) (v : String),
        att 0 = some ⟨429, hdrs, b⟩ → headersGet hdrs "Retry-After" = some v →
        pyToInt? v = none →
        make_request att url =
          ((make_requestGo att url 2 1).1,
           ⟨url :: (make_requestGo att url 2 1).2.requests,
            (make_requestGo att url 2 1).2.sleeps⟩)) := by
  obtain ⟨hl, hm, hok, _⟩ := make_requestGo_spec att url 3 0
  refine ⟨hl, hm, hok, ?_⟩
  intro hdrs b v h hget hparse
  have hra : retryAfterSeconds hdrs = none := by simp [retryAfterSeconds, hget, hparse]
  simp [make_request, make_requestGo, h, hra]

def attC10 : Nat → Option HttpResponse := fun i =>
  if i = 0 then some ⟨429, [("Retry-After", "soon")], JVal.null⟩
  else some ⟨200, [], JVal.null⟩

theorem make_request_total_no_crash_witness :
    make_request attC10 "U" =
      ((make_requestGo attC10 "U" 2 1).1,
       ⟨"U" :: (make_requestGo attC10 "U" 2 1).2.requests,
        (make_requestGo attC10 "U" 2 1).2.sleeps⟩) :=
  (make_request_total_no_crash attC10 "U").2.2.2
    [("Retry-After", "soon")] JVal.null "soon" rfl rfl rfl

lemma stripWs_subset (cs : List Char) : stripWs cs ⊆ cs := by
  intro c hc
  simp only [stripWs, List.mem_reverse] at hc
  have h1 := (List.dropWhile_sublist _).subset hc
  rw [List.mem_reverse] at h1
  exact (List.dropWhile_sublist _).subset h1

def exItem : JVal :=
  JVal.obj [("displayName", JVal.str "My/Policy:1"), ("id", JVal.str "abc123")]

/-- C5: the characters save_item keeps are exactly letters, digits,
space, dot, underscore and hyphen; the label is truncated to at most 60
characters; the label falls back from displayName to name to id to
"unknown"; an absent id falls back to "noid"; the key has the shape
runDate/category/label (id).json; and the spec example item produces the
file name MyPolicy1 (abc123).json. -/
theorem save_item_key_derivation (runDate category : String) (item : JVal) (s t u : String) :
    (∀ c ∈ sanitizeChars s.toList, allowedChar c = true) ∧
    ((sanitizeChars s.toList).length ≤ 60) ∧
    (item.getField "displayName" = some (JVal.str s) → s ≠ "" → raw_name item = JVal.str s) ∧
    (item.getField "displayName" = none → item.getField "name" = some (JVal.str t) →
      t ≠ "" → raw_name item = JVal.str t) ∧
    (item.getField "displayName" = none → item.getField "name" = none →
      item.getField "id" = some (JVal.str u) → u ≠ "" → raw_name item = JVal.str u) ∧
    (item.getField "displayName" = none → item.getField "name" = none →
      item.getField "id" = none → raw_name item = JVal.str "unknown") ∧
    (item.getField "id" = none → item_id item = "noid") ∧
    (blob_path runDate category item = runDate ++ "/" ++ category ++ "/" ++ file_name item) ∧
    (file_name exItem = "MyPolicy1 (abc123).json") := by
  refine ⟨?_, ?_, ?_, ?_, ?_, ?_, ?_, rfl, by decide⟩
  · intro c hc
    have h1 : c ∈ stripWs (s.toList.filter allowedChar) :=
      List.take_subset 60 _ hc
    have h2 : c ∈ s.toList.filter allowedChar := stripWs_subset _ h1
    exact (List.mem_filter.mp h2).2
  · simp only [sanitizeChars, List.length_take]
    omega
  · intro hd hs
    simp [raw_name, dictGet, hd, pyOr, JVal.truthy, hs]
  · intro hd hn ht
    simp [raw_name, dictGet, hd, hn, pyOr, JVal.truthy, ht]
  · intro hd hn hi hu
    simp [raw_name, dictGet, hd, hn, hi, pyOr, JVal.truthy, hu]
  · intro hd hn hi
    simp [raw_name, dictGet, hd, hn, hi, pyOr, JVal.truthy]
  · intro hi
    simp [item_id, hi]

theorem save_item_key_derivation_witness :
    raw_name exItem = JVal.str "My/Policy:1" ∧
      file_name exItem = "MyPolicy1 (abc123).json" :=
  ⟨(save_item_key_derivation "2026-01-01" "Cat" exItem "My/Policy:1" "" "").2.2.1
      rfl (by decide),
   (save_item_key_derivation "2026-01-01" "Cat" exItem "" "" "").2.2.2.2.2.2.2.2⟩

/-- C7: a store write that raises is caught by save_item, which returns
normally with the item dropped at its key; every item of a save sequence
is processed (the outcome list has one entry per item), and the outcome
at each position depends only on that position's own item and write
outcome, so a failing write never stops the run. -/
theorem save_item_write_failure_dropped :
    (∀ (write : String → JVal → WriteResult) (runDate category : String) (item : JVal)
        (e : String),
        write (blob_path runDate category item) item = WriteResult.err e →
        save_item write runDate category item =
          SaveOutcome.dropped (blob_path runDate category item) e) ∧
    (∀ (write : Nat → String → JVal → WriteResult) (runDate : String) (i : Nat)
        (todo : List (String × JVal)),
        (processSaves write runDate i todo).length = todo.length) ∧
    (∀ (write : Nat → String → JVal → WriteResult) (runDate : String) (i : Nat)
        (todo : List (String × JVal)) (k : Nat),
        (processSaves write runDate i todo).get? k =
          (todo.get? k).map (fun ci => save_item (write (i + k)) runDate ci.1 ci.2)) := by
  refine ⟨?_, ?_, ?_⟩
  · intro write runDate category item e h
    simp [save_item, h]
  · intro write runDate i todo
    induction todo generalizing i with
    | nil => simp [processSaves]
    | cons hd tl ih =>
      obtain ⟨c, it⟩ := hd
      simp [processSaves, ih]
  · intro write runDate i todo k
    induction todo generalizing i k with
    | nil => simp [processSaves]
    | cons hd tl ih =>
      obtain ⟨c, it⟩ := hd
      cases k with
      | zero => simp [processSaves]
      | succ k =>
        have hik : i + (k + 1) = (i + 1) + k := by omega
        simp only [processSaves, List.get?_cons_succ]
        rw [hik]
        exact ih (i + 1) k

def wrC7 : String → JVal → WriteResult := fun _ _ => WriteResult.err "boom"

theorem save_item_write_failure_dropped_witness :
    save_item wrC7 "2026-01-01" "Entra_Users" (JVal.obj []) =
      SaveOutcome.dropped (blob_path "2026-01-01" "Entra_Users" (JVal.obj [])) "boom" :=
  save_item_write_failure_dropped.1 wrC7 "2026-01-01" "Entra_Users" (JVal.obj []) "boom" rfl

/-- C9: whenever the certificate was materialized to disk during setup,
the temporary certificate file is gone when setup finishes, on the
success path and on every exception path alike, because the finally block
of the token-exchange step removes it unconditionally. -/
theorem setup_cert_cleanup (w : SetupWorld) (hw : w.certWrite = CertWrite.ok) :
    (setup w).2 = false := by
  rcases w with ⟨st, vt, cw, cr, tk⟩
  simp only at hw
  subst hw
  cases st <;> cases vt <;> cases cr <;> cases tk <;> simp [setup]

theorem setup_cert_cleanup_witness :
    (setup ⟨true, true, CertWrite.ok, true, false⟩).2 = false :=
  setup_cert_cleanup ⟨true, true, CertWrite.ok, true, false⟩ rfl

lemma instancesUrl_ne_empty (t : JVal) : instancesUrl t ≠ "" := by
  intro h
  have hb : 0 < GRAPH_API_BETA.length := by decide
  have h2 := congrArg String.length h
  simp only [instancesUrl, String.length_append, String.length_empty] at h2
  omega

/-- C6: every save of the baseline traversal carries the fixed category
Intune_SecurityBaselines and is an instance of some fetched template
tagged under _SourceTemplate with that template's display name; an empty
template list produces zero baseline saves; and the concrete scenario of
2 templates whose inner fetches return 3 and 0 instances produces exactly
3 tagged saves, in order, one inner fetch having run per template. -/
theorem fetch_baselines_two_level (server : String → Option JVal) (fuel : Nat) :
    (∀ x ∈ fetch_baselines server fuel,
        x.1 = "Intune_SecurityBaselines" ∧
        ∃ t ∈ fetch_all_pages server fuel templatesUrl,
          ∃ inst ∈ fetch_all_pages server fuel (instancesUrl t),
            x.2 = inst.setField "_SourceTemplate" (dictGet t "displayName")) ∧
    (fetch_all_pages server fuel templatesUrl = [] → fetch_baselines server fuel = []) ∧
    (∀ (t1 t2 i1 i2 i3 : JVal), 1 ≤ fuel →
        server templatesUrl = some (JVal.obj [("value", JVal.arr [t1, t2])]) →
        server (instancesUrl t1) = some (JVal.obj [("value", JVal.arr [i1, i2, i3])]) →
        server (instancesUrl t2) = some (JVal.obj [("value", JVal.arr [])]) →
        fetch_baselines server fuel =
          [("Intune_SecurityBaselines",
              i1.setField "_SourceTemplate" (dictGet t1 "displayName")),
           ("Intune_SecurityBaselines",
              i2.setField "_SourceTemplate" (dictGet t1 "displayName")),
           ("Intune_SecurityBaselines",
              i3.setField "_SourceTemplate" (dictGet t1 "displayName"))]) := by
  refine ⟨?_, ?_, ?_⟩
  · intro x hx
    simp only [fetch_baselines, List.mem_flatten, List.mem_map] at hx
    obtain ⟨l, ⟨t, ht, rfl⟩, hxl⟩ := hx
    obtain ⟨inst, hinst, rfl⟩ := List.mem_map.mp hxl
    exact ⟨rfl, t, ht, inst, hinst, rfl⟩
  · intro h
    simp [fetch_baselines, h]
  · intro t1 t2 i1 i2 i3 hf h1 h2 h3
    have e1 := fetch_all_pages_one_page server templatesUrl [t1, t2] fuel (by decide) hf h1
    have e2 := fetch_all_pages_one_page server (instancesUrl t1) [i1, i2, i3] fuel
      (instancesUrl_ne_empty t1) hf h2
    have e3 := fetch_all_pages_one_page server (instancesUrl t2) [] fuel
      (instancesUrl_ne_empty t2) hf h3
    simp [fetch_baselines, e1, e2, e3]

def tmplC6a : JVal := JVal.obj [("id", JVal.str "t1"), ("displayName", JVal.str "Baseline One")]

def tmplC6b : JVal := JVal.obj [("id", JVal.str "t2"), ("displayName", JVal.str "Baseline Two")]

def srvC6 : String → Option JVal := fun u =>
  if u = templatesUrl then some (JVal.obj [("value", JVal.arr [tmplC6a, tmplC6b])])
  else if u = instancesUrl tmplC6a then
    some (JVal.obj [("value", JVal.arr [JVal.obj [("id", JVal.str "i1")],
      JVal.obj [("id", JVal.str "i2")], JVal.obj [("id", JVal.str "i3")]])])
  else if u = instancesUrl tmplC6b then some (JVal.obj [("value", JVal.arr [])])
  else none

theorem fetch_baselines_two_level_witness :
    fetch_baselines srvC6 1 =
      [("Intune_SecurityBaselines",
          (JVal.obj [("id", JVal.str "i1")]).setField "_SourceTemplate"
            (dictGet tmplC6a "displayName")),
       ("Intune_SecurityBaselines",
          (JVal.obj [("id", JVal.str "i2")]).setField "_SourceTemplate"
            (dictGet tmplC6a "displayName")),
       ("Intune_SecurityBaselines",
          (JVal.obj [("id", JVal.str "i3")]).setField "_SourceTemplate"
            (dictGet tmplC6a "displayName"))] :=
  (fetch_baselines_two_level srvC6 1).2.2 tmplC6a tmplC6b
    (JVal.obj [("id", JVal.str "i1")]) (JVal.obj [("id", JVal.str "i2")])
    (JVal.obj [("id", JVal.str "i3")]) (by decide) rfl rfl rfl

lemma pages_requested_head (server : String → Option JVal) (fuel : Nat) (url : String)
    (hu : url ≠ "") (hf : 1 ≤ fuel) :
    ∃ tl, pages_requested server fuel url = url :: tl := by
  obtain ⟨f, rfl⟩ : ∃ f, fuel = f + 1 := ⟨fuel - 1, by omega⟩
  simp only [pages_requested, fetch_all_pagesGo, if_neg hu]
  cases hs : server url with
  | none => exact ⟨[], rfl⟩
  | some data =>
    cases hv : data.getField "value" with
    | none => exact ⟨[], by simp [hv]⟩
    | some v => exact ⟨(fetch_all_pagesGo server f (nextUrl data)).2, by simp [hv]⟩

lemma map_head_sublist_flatten {α : Type} (l : List α) (f : α → List String) (g : α → String)
    (h : ∀ x ∈ l, ∃ tl, f x = g x :: tl) :
    (l.map g).Sublist ((l.map f).flatten) := by
  induction l with
  | nil => simp
  | cons a l ih =>
    obtain ⟨tl, htl⟩ := h a (by simp)
    simp only [List.map_cons, List.flatten_cons, htl, List.cons_append]
    exact List.Sublist.cons₂ _ ((ih (fun x hx => h x (List.mem_cons_of_mem _ hx))).trans
      (List.sublist_append_right tl _))

/-- C8: run visits every catalog resource: each resource URL equals the
API base selected by its declared surface followed by its endpoint path,
the sequence of resource root URLs occurs inside the run request trace in
catalog insertion order with the baseline templates URL after all of
them, and each root URL receives at least one GET since make_request
always issues at least one request. -/
theorem run_catalog_requests (server : String → Option JVal) (fuel : Nat) (hf : 1 ≤ fuel) :
    (∀ r ∈ RESOURCES,
        resourceUrl r =
          (if r.version = "beta" then GRAPH_API_BETA else GRAPH_API_BASE) ++ r.endpoint) ∧
    (∀ r ∈ RESOURCES, resourceUrl r ∈ runPages server fuel) ∧
    ((RESOURCES.map resourceUrl ++ [templatesUrl]).Sublist (runPages server fuel)) ∧
    (∀ (att : Nat → Option HttpResponse) (url : String),
        1 ≤ (make_request att url).2.requests.length) := by
  have hne : ∀ r ∈ RESOURCES, resourceUrl r ≠ "" := by decide
  have hsub : (RESOURCES.map resourceUrl).Sublist
      ((RESOURCES.map (fun r => pages_requested server fuel (resourceUrl r))).flatten) := by
    apply map_head_sublist_flatten
    intro r hr
    exact pages_requested_head server fuel (resourceUrl r) (hne r hr) hf
  have hbase : ∃ tl, baselinePages server fuel = templatesUrl :: tl := by
    obtain ⟨tl, htl⟩ := pages_requested_head server fuel templatesUrl (by decide) hf
    exact ⟨tl ++ ((fetch_all_pages server fuel templatesUrl).map
      (fun template => pages_requested server fuel (instancesUrl template))).flatten,
      by simp [baselinePages, htl]⟩
  have hfull : (RESOURCES.map resourceUrl ++ [templatesUrl]).Sublist (runPages server fuel) := by
    obtain ⟨tl, htl⟩ := hbase
    unfold runPages
    exact List.Sublist.append hsub
      (by rw [htl]; exact List.singleton_sublist.mpr (by simp))
  refine ⟨by decide, ?_, hfull, ?_⟩
  · intro r hr
    exact hfull.subset (List.mem_append_left _ (List.mem_map_of_mem _ hr))
  · intro att url
    exact (make_requestGo_spec att url 3 0).2.2.2 (by omega)

def srvNone : String → Option JVal := fun _ => none

theorem run_catalog_requests_witness :
    (∀ r ∈ RESOURCES,
        resourceUrl r =
          (if r.version = "beta" then GRAPH_API_BETA else GRAPH_API_BASE) ++ r.endpoint) ∧
    (∀ r ∈ RESOURCES, resourceUrl r ∈ runPages srvNone 1) ∧
    ((RESOURCES.map resourceUrl ++ [templatesUrl]).Sublist (runPages srvNone 1)) ∧
    (∀ (att : Nat → Option HttpResponse) (url : String),
        1 ≤ (make_request att url).2.requests.length) :=
  run_catalog_requests srvNone 1 (by decide)
